import Mathlib

/-!
# Verification of the dragonspeak-service transcription core

Shallow embedding of the transcription workflow of the
`EdgarH78/dragonspeak-service` repository:

* `models/models.go` — the `Transcript` entity, the `TranscriptStatus` and
  `AudioFormat` enumerations with their string (de)serialization, and the
  sentinel error values of `models/customerrors.go`;
* `app/transcriptionmanager.go` — the `TranscriptionManager` orchestrator
  (submit / get / list / download), with its four collaborators
  (persistence, blob store, transcription provider, uuid source) embedded
  as explicit oracle records over caller-chosen state types, and the
  external side effects of one call recorded in an event trace;
* `filestorage/s3filestore.go` — the S3-backed blob store, with the S3
  service itself modeled as a key-value map from (bucket, key) to bytes.

Go `error` values are embedded as the inductive `GoError`; `errors.Is`
becomes `GoError.is`.  Byte streams (`io.Reader` / `io.WriterAt`) are
embedded as `List Nat`.  Machine integers (`int64` byte counts) are
embedded as `Nat` (all counts in scope are non-negative lengths).
-/

set_option linter.unusedVariables false

deriving instance DecidableEq for Except

/-- Go `error` values as used by this repository: the four sentinel errors
of `models/customerrors.go`, plain formatted errors (`fmt.Errorf` without
`%w`), and wrapping errors (`fmt.Errorf` with `%w`). -/
inductive GoError where
  | entityNotFound
  | entityAlreadyExists
  | invalidEntity
  | conflicted
  | errorf (msg : String)
  | wrap (msg : String) (inner : GoError)
  deriving DecidableEq, Repr

/-- Embedding of Go `errors.Is(err, target)`: `err` matches `target`
directly, or some error in its unwrap chain does.  Only `wrap` (built by
`fmt.Errorf` with `%w`) exposes an inner error to unwrap. -/
def GoError.is : GoError → GoError → Bool
  | e@(.wrap _ inner), target => e == target || inner.is target
  | e, target => e == target

/-- Embedding of Go `strings.EqualFold` restricted to ASCII (every string
the repository compares is ASCII, where `EqualFold` agrees with
lower-casing both sides). -/
def strEqualFold (s t : String) : Bool :=
  s.data.map Char.toLower == t.data.map Char.toLower

/-- `models.TranscriptStatus` (models.go lines 68-77, iota order). -/
inductive TranscriptStatus where
  | notStarted
  | transcribing
  | summarizing
  | done
  | transcriptionFailed
  | summarizingFailed
  deriving DecidableEq, Repr, Fintype

/-- The parallel array `transcriptStatusStrings` of models.go line 79,
paired with the status value of the same index (iota order). -/
def transcriptStatusTable : List (TranscriptStatus × String) :=
  [(.notStarted, "NotStarted"), (.transcribing, "Transcribing"),
   (.summarizing, "Summarizing"), (.done, "Done"),
   (.transcriptionFailed, "TranscriptionFailed"),
   (.summarizingFailed, "SummarizingFailed")]

/-- `TranscriptStatus.String()` (models.go lines 81-83): the name stored at
the value's index of `transcriptStatusStrings`. -/
def TranscriptStatus.str (t : TranscriptStatus) : String :=
  (((transcriptStatusTable.find? (fun pr => pr.1 == t)).map (fun pr => pr.2))).getD ""

/-- `models.TranscriptStatusFromString` (models.go lines 85-92): first
case-insensitive match in `transcriptStatusStrings` wins; otherwise the
plain formatted error `fmt.Errorf("invalid TranscriptStatus: %s", str)`
together with the zero value (embedded as the error branch alone). -/
def TranscriptStatusFromString (str : String) : Except GoError TranscriptStatus :=
  match transcriptStatusTable.find? (fun pr => strEqualFold pr.2 str) with
  | some pr => .ok pr.1
  | none => .error (.errorf ("invalid TranscriptStatus: " ++ str))

/-- `models.AudioFormat` (models.go lines 94-104, iota order). -/
inductive AudioFormat where
  | mp3
  | mp4
  | wav
  | flac
  | amr
  | ogg
  | webm
  deriving DecidableEq, Repr, Fintype

/-- The parallel array `audioFormatStrings` of models.go line 106, paired
with the format value of the same index (iota order). -/
def audioFormatTable : List (AudioFormat × String) :=
  [(.mp3, "MP3"), (.mp4, "MP4"), (.wav, "WAV"), (.flac, "FLAC"),
   (.amr, "AMR"), (.ogg, "OGG"), (.webm, "WebM")]

/-- `AudioFormat.String()` (models.go lines 108-110). -/
def AudioFormat.str (a : AudioFormat) : String :=
  (((audioFormatTable.find? (fun pr => pr.1 == a)).map (fun pr => pr.2))).getD ""

/-- `models.AudioFormatFromString` (models.go lines 112-119). -/
def AudioFormatFromString (str : String) : Except GoError AudioFormat :=
  match audioFormatTable.find? (fun pr => strEqualFold pr.2 str) with
  | some pr => .ok pr.1
  | none => .error (.errorf ("invalid AudioFormat: " ++ str))

/-- `models.Transcript` (models.go lines 121-129). -/
structure Transcript where
  jobID : String
  audioLocation : String
  audioFormat : AudioFormat
  transcriptLocation : String
  summaryLocation : String
  status : TranscriptStatus
  deriving DecidableEq, Repr

/-- The bytes of an ASCII string, as the byte streams the repository moves
through `io.Reader`/`io.WriterAt`. -/
def strBytes (s : String) : List Nat :=
  s.data.map Char.toNat

/-!
## The orchestrator's collaborators

`app/transcriptionmanager.go` (lines 12-29) declares four narrow
collaborator interfaces.  Each is embedded as a record of oracle
functions over a caller-chosen state type; operations that the Go
interface lets mutate external state (inserts, uploads, provider
submissions) thread that state explicitly, while the read operations are
embedded as pure lookups on it.
-/

/-- The `transcriptionDb` interface (transcriptionmanager.go lines 21-25),
over a persistence state type `δ`. -/
structure DbConn (δ : Type) where
  addTranscriptToSession : δ → String → Transcript → δ × Except GoError Transcript
  getTranscript : δ → String → Except GoError Transcript
  getTranscriptsForSession : δ → String → Except GoError (List Transcript)

/-- The `fileStore` interface (transcriptionmanager.go lines 16-19), over
a blob-store state type `φ`.  `downloadData` returns the bytes the store
wrote into the caller's sink together with the byte count it reports. -/
structure FileStore (φ : Type) where
  uploadData : φ → String → String → List Nat → φ × Except GoError Unit
  downloadData : φ → String → String → Except GoError (List Nat × Nat)

/-- The `transcriptionProvider` interface (transcriptionmanager.go lines
12-14), over a provider state type `π`. -/
structure Provider (π : Type) where
  startTranscriptionJob : π → String → String → String → AudioFormat → π × Except GoError Unit

/-- `app.TranscriptionManager` (transcriptionmanager.go lines 39-45).  The
`uuidProvider` field gives the value returned by the k-th `NewUUID()`
call of one operation (the Go code calls it up to three times per submit,
in source order). -/
structure TranscriptionManager (δ φ π : Type) where
  bucket : String
  transcriptionProvider : Provider π
  fileStore : FileStore φ
  transcriptionDb : DbConn δ
  uuidProvider : Nat → String

/-- One observable collaborator call made by an orchestrator operation,
with the arguments it was given. -/
inductive Event where
  | persist (sessionID : String) (transcript : Transcript)
  | upload (bucket fileKey : String) (body : List Nat)
  | start (jobName audioLocation resultLocation : String) (audioFormat : AudioFormat)
  | jobQuery (jobID : String)
  | fetch (bucket fileKey : String)
  deriving DecidableEq, Repr

/-- Whether an event is a blob-store upload. -/
def Event.isUpload : Event → Bool
  | .upload .. => true
  | _ => false

/-- Whether an event is a provider job submission. -/
def Event.isStart : Event → Bool
  | .start .. => true
  | _ => false

/-- Whether an event is a persistence insert. -/
def Event.isPersist : Event → Bool
  | .persist .. => true
  | _ => false

/-- Outcome of one `SubmitTranscriptionJob` call: the three collaborator
states after the call, the trace of collaborator calls it made (in call
order), and its Go return value. -/
structure SubmitResult (δ φ π : Type) where
  db : δ
  fs : φ
  tp : π
  events : List Event
  result : Except GoError Transcript
  deriving Repr

/-- The `models.Transcript` literal assembled by `SubmitTranscriptionJob`
(transcriptionmanager.go lines 58-67): `JobID` is the first fresh uuid,
`AudioLocation` is `"audio-"` plus the second, `TranscriptLocation` is
`"transcript-"` plus the third, `Status` is `Transcribing`, and
`SummaryLocation` is left at Go's zero value `""`. -/
def assembledTranscript (uuid : Nat → String) (audioFormat : AudioFormat) : Transcript :=
  { jobID := uuid 0
    audioLocation := "audio-" ++ uuid 1
    audioFormat := audioFormat
    transcriptLocation := "transcript-" ++ uuid 2
    summaryLocation := ""
    status := .transcribing }

/-- `TranscriptionManager.SubmitTranscriptionJob` (transcriptionmanager.go
lines 57-83): assemble the record, persist it (abort on error), upload the
audio (abort on error), start the provider job (abort on error), and
return the locally assembled record.  `userID` and `campaignID` are
parameters of the Go signature that its body never reads. -/
def SubmitTranscriptionJob {δ φ π : Type} (m : TranscriptionManager δ φ π)
    (d : δ) (f : φ) (p : π)
    (userID campaignID sessionID : String) (audioFormat : AudioFormat)
    (audioFile : List Nat) : SubmitResult δ φ π :=
  let jobID := m.uuidProvider 0
  let audioLocation := "audio-" ++ m.uuidProvider 1
  let transcriptLocation := "transcript-" ++ m.uuidProvider 2
  let transcriptionJob := assembledTranscript m.uuidProvider audioFormat
  match m.transcriptionDb.addTranscriptToSession d sessionID transcriptionJob with
  | (d1, .error e) =>
      ⟨d1, f, p, [.persist sessionID transcriptionJob], .error e⟩
  | (d1, .ok _) =>
      match m.fileStore.uploadData f m.bucket audioLocation audioFile with
      | (f1, .error e) =>
          ⟨d1, f1, p,
           [.persist sessionID transcriptionJob,
            .upload m.bucket audioLocation audioFile], .error e⟩
      | (f1, .ok _) =>
          match m.transcriptionProvider.startTranscriptionJob p jobID audioLocation
              transcriptLocation audioFormat with
          | (p1, .error e) =>
              ⟨d1, f1, p1,
               [.persist sessionID transcriptionJob,
                .upload m.bucket audioLocation audioFile,
                .start jobID audioLocation transcriptLocation audioFormat], .error e⟩
          | (p1, .ok _) =>
              ⟨d1, f1, p1,
               [.persist sessionID transcriptionJob,
                .upload m.bucket audioLocation audioFile,
                .start jobID audioLocation transcriptLocation audioFormat],
               .ok transcriptionJob⟩

/-- `TranscriptionManager.GetTranscriptJob` (transcriptionmanager.go lines
85-87): pure delegation to the persistence lookup by job id. -/
def GetTranscriptJob {δ φ π : Type} (m : TranscriptionManager δ φ π) (d : δ)
    (jobID : String) : Except GoError Transcript :=
  m.transcriptionDb.getTranscript d jobID

/-- `TranscriptionManager.GetTranscriptsForSession` (transcriptionmanager.go
lines 89-91): pure delegation to the persistence lookup by session. -/
def GetTranscriptsForSession {δ φ π : Type} (m : TranscriptionManager δ φ π)
    (d : δ) (sessionID : String) : Except GoError (List Transcript) :=
  m.transcriptionDb.getTranscriptsForSession d sessionID

/-- Outcome of one `DownloadTranscript` call: the trace of collaborator
calls and the Go return value — on success the reported byte count paired
with the bytes written into the caller's sink. -/
structure DownloadResult where
  events : List Event
  result : Except GoError (Nat × List Nat)
  deriving Repr

/-- `TranscriptionManager.DownloadTranscript` (transcriptionmanager.go
lines 93-103): look the record up by job id (abort on error), then fetch
the blob at its `TranscriptLocation` and return the byte count. -/
def DownloadTranscript {δ φ π : Type} (m : TranscriptionManager δ φ π)
    (d : δ) (f : φ) (jobID : String) : DownloadResult :=
  match m.transcriptionDb.getTranscript d jobID with
  | .error e => ⟨[.jobQuery jobID], .error e⟩
  | .ok transcript =>
      match m.fileStore.downloadData f m.bucket transcript.transcriptLocation with
      | .error e =>
          ⟨[.jobQuery jobID, .fetch m.bucket transcript.transcriptLocation], .error e⟩
      | .ok (bytes, bytesWritten) =>
          ⟨[.jobQuery jobID, .fetch m.bucket transcript.transcriptLocation],
           .ok (bytesWritten, bytes)⟩

/-!
## Concrete collaborators
-/

/-- State of the in-memory persistence collaborator: the stored
(session id, Transcript) rows in insertion order. -/
abbrev SpecDbState := List (String × Transcript)

/-- Modelled from the spec: the persistence collaborator (spec §6 table —
`AddTranscript` stores the record keyed by session id and returns the
stored Transcript, `GetTranscript` looks a Transcript up by job id and
fails with `NotFound` when absent, `GetTranscriptsForSession` returns the
session's list of Transcripts, empty when there are none).  The
repository's SQL implementation of `transcriptionDb` is not under `src/`;
its state is modeled as a list of rows: add appends, the lookups scan. -/
def specDb : DbConn SpecDbState where
  addTranscriptToSession := fun d sessionID t => (d ++ [(sessionID, t)], .ok t)
  getTranscript := fun d jobID =>
    match d.find? (fun pr => pr.2.jobID == jobID) with
    | some pr => .ok pr.2
    | none => .error .entityNotFound
  getTranscriptsForSession := fun d sessionID =>
    .ok ((d.filter (fun pr => pr.1 == sessionID)).map (fun pr => pr.2))

/-- Go's `filepath.Base` on a Unix host (the separator is `'/'`): `"."`
for the empty path; otherwise strip trailing separators, keep everything
after the last remaining separator, and fall back to `"/"` when the path
consisted only of separators. -/
def filepathBase (path : String) : String :=
  if path = "" then "."
  else
    let stripped := (path.data.reverse.dropWhile (fun c => c = '/')).reverse
    let last := (stripped.reverse.takeWhile (fun c => c ≠ '/')).reverse
    if last = [] then "/" else ⟨last⟩

/-- State of the S3 service, modeled as a map from (bucket, key) to the
stored bytes; newer puts shadow older ones. -/
abbrev S3State := List ((String × String) × List Nat)

/-- `S3Filestore.UploadData` (s3filestore.go lines 27-35): the object is
stored under `filepath.Base(fileKey)` — the directory components of the
key are discarded (line 30).  The S3 put itself is modeled as a map
insert that always succeeds (transport failures are out of scope). -/
def s3UploadData (st : S3State) (bucket fileKey : String) (body : List Nat) : S3State :=
  ((bucket, filepathBase fileKey), body) :: st

/-- `S3Filestore.DownloadData` (s3filestore.go lines 37-50): the object is
fetched under the full `fileKey` (line 43); the downloader writes the
stored bytes into the sink and reports their count, and a key that is
absent fails (modeled as `entityNotFound`, S3's no-such-key). -/
def s3DownloadData (st : S3State) (bucket fileKey : String) :
    Except GoError (List Nat × Nat) :=
  match st.find? (fun pr => pr.1 == (bucket, fileKey)) with
  | some pr => .ok (pr.2, pr.2.length)
  | none => .error .entityNotFound

/-- The S3-backed blob store as a `FileStore` collaborator. -/
def s3FileStore : FileStore S3State where
  uploadData := fun st bucket fileKey body => (s3UploadData st bucket fileKey body, .ok ())
  downloadData := s3DownloadData

/-- A transcription provider that accepts every job (keeps no state). -/
def okProvider : Provider Unit where
  startTranscriptionJob := fun p _ _ _ _ => (p, .ok ())

/-- A transcription provider that rejects every job with the given
error. -/
def errProvider (e : GoError) : Provider Unit where
  startTranscriptionJob := fun p _ _ _ _ => (p, .error e)

/-- The identifier source of the repository's test suite
(transcriptionmanager_test.go): every `NewUUID()` call returns
`"testUUID"`. -/
def testUuid : Nat → String := fun _ => "testUUID"

/-- The orchestrator wired as in the repository's test suite: bucket
`"testBucket"`, the in-memory persistence collaborator, the S3-modeled
blob store, an always-accepting provider and the fixed identifier
source. -/
def testManager : TranscriptionManager SpecDbState S3State Unit where
  bucket := "testBucket"
  transcriptionProvider := okProvider
  fileStore := s3FileStore
  transcriptionDb := specDb
  uuidProvider := testUuid

/-- A persistence collaborator whose insert (and lookups) always fail with
the given error. -/
def failDb (e : GoError) : DbConn Unit where
  addTranscriptToSession := fun d _ _ => (d, .error e)
  getTranscript := fun _ _ => .error e
  getTranscriptsForSession := fun _ _ => .error e

/-- A stateless blob store that accepts every upload and fails every
download with the given error. -/
def failingDownloadStore (e : GoError) : FileStore Unit where
  uploadData := fun st _ _ _ => (st, .ok ())
  downloadData := fun _ _ _ => .error e

/-!
## Helper lemmas
-/

lemma find?_append_right {α : Type} (p : α → Bool) (l l' : List α)
    (h : ∀ x ∈ l, p x = false) : (l ++ l').find? p = l'.find? p := by
  induction l with
  | nil => rfl
  | cons a t ih =>
      have ha : p a = false := h a (by simp)
      simp only [List.cons_append, List.find?, ha]
      exact ih fun x hx => h x (by simp [hx])

lemma length_takeWhile_lt {l : List Char} {p : Char → Bool} {x : Char}
    (hx : x ∈ l) (hp : p x = false) : (l.takeWhile p).length < l.length := by
  induction l with
  | nil => cases hx
  | cons a t ih =>
      by_cases hpa : p a = true
      · have hxt : x ∈ t := by
          rcases List.mem_cons.mp hx with h | h
          · subst h; rw [hp] at hpa; cases hpa
          · exact h
        simpa [List.takeWhile, hpa] using Nat.succ_lt_succ (ih hxt)
      · have hpa' : p a = false := by
          cases h : p a
          · rfl
          · exact absurd h hpa
        simp [List.takeWhile, hpa']

lemma dropWhile_eq_nil_forall {l : List Char} {p : Char → Bool}
    (h : l.dropWhile p = []) : ∀ x ∈ l, p x = true := by
  induction l with
  | nil => intro x hx; cases hx
  | cons a t ih =>
      intro x hx
      by_cases hpa : p a = true
      · rcases List.mem_cons.mp hx with hxa | hxt
        · subst hxa; exact hpa
        · exact ih (by simpa [List.dropWhile, hpa] using h) x hxt
      · have hpa' : p a = false := by
          cases hc : p a
          · rfl
          · exact absurd hc hpa
        simp [List.dropWhile, hpa'] at h


/-!
## Claims
-/

/-- C1: the claim says `SubmitTranscriptionJob` composes
`JobID = sessionID-uuid`, `AudioLocation = userID/campaignID/sessionID/audio-uuid`
and `TranscriptLocation = userID/campaignID/sessionID/transcript-uuid`.  The
current orchestrator (the version whose signatures the presentation layer
and `main.go` build against) instead uses the bare uuid as `JobID` and the
unprefixed keys `audio-uuid` / `transcript-uuid`: evaluated at the claim's
own inputs (user1/campaign1/session0, fixed identifier `"testUUID"`), the
submitted record's fields differ from every one of the three claimed
values — even though the repository's own test suite asserts exactly the
claimed values. -/
theorem submit_identifier_composition_divergence :
    (SubmitTranscriptionJob testManager [] [] () "user1" "campaign1" "session0" .mp3
        (strBytes "testaudio")).result
      = .ok { jobID := "testUUID", audioLocation := "audio-testUUID",
              audioFormat := .mp3, transcriptLocation := "transcript-testUUID",
              summaryLocation := "", status := .transcribing } ∧
    (∀ t : Transcript,
      (SubmitTranscriptionJob testManager [] [] () "user1" "campaign1" "session0" .mp3
          (strBytes "testaudio")).result = .ok t →
      t.jobID ≠ "session0-testUUID" ∧
      t.audioLocation ≠ "user1/campaign1/session0/audio-testUUID" ∧
      t.transcriptLocation ≠ "user1/campaign1/session0/transcript-testUUID") := by
  constructor
  · rfl
  · intro t ht
    have h0 : (SubmitTranscriptionJob testManager [] [] () "user1" "campaign1" "session0"
        .mp3 (strBytes "testaudio")).result
        = .ok { jobID := "testUUID", audioLocation := "audio-testUUID",
                audioFormat := .mp3, transcriptLocation := "transcript-testUUID",
                summaryLocation := "", status := .transcribing } := rfl
    rw [h0] at ht
    injection ht with h1
    subst h1
    exact ⟨by decide, by decide, by decide⟩

/-- C2: when the persistence insert fails, `SubmitTranscriptionJob` returns
that error unchanged and its trace holds the persistence call alone — no
blob-store upload and no provider submission occur. -/
theorem submit_persistence_failure_aborts {δ φ π : Type}
    (m : TranscriptionManager δ φ π) (d : δ) (f : φ) (p : π)
    (userID campaignID sessionID : String) (audioFormat : AudioFormat)
    (audioFile : List Nat) (d1 : δ) (e : GoError)
    (h : m.transcriptionDb.addTranscriptToSession d sessionID
        (assembledTranscript m.uuidProvider audioFormat) = (d1, .error e)) :
    (SubmitTranscriptionJob m d f p userID campaignID sessionID audioFormat
        audioFile).result = .error e ∧
    (SubmitTranscriptionJob m d f p userID campaignID sessionID audioFormat
        audioFile).events
      = [.persist sessionID (assembledTranscript m.uuidProvider audioFormat)] ∧
    ((SubmitTranscriptionJob m d f p userID campaignID sessionID audioFormat
        audioFile).events.all fun ev => !ev.isUpload && !ev.isStart) = true := by
  simp [SubmitTranscriptionJob, h, Event.isUpload, Event.isStart]

/-- The orchestrator of the C2 witness: its persistence insert fails with
`"db error"`. -/
def c2Manager : TranscriptionManager Unit S3State Unit where
  bucket := "testBucket"
  transcriptionProvider := okProvider
  fileStore := s3FileStore
  transcriptionDb := failDb (.errorf "db error")
  uuidProvider := testUuid

/-- Witness for C2 at a concrete failing persistence collaborator. -/
theorem submit_persistence_failure_aborts_witness :
    c2Manager.transcriptionDb.addTranscriptToSession () "session0"
        (assembledTranscript testUuid .mp3) = ((), .error (.errorf "db error")) ∧
    (SubmitTranscriptionJob c2Manager () [] () "user1" "campaign1" "session0" .mp3
        (strBytes "testaudio")).result = .error (.errorf "db error") ∧
    ((SubmitTranscriptionJob c2Manager () [] () "user1" "campaign1" "session0" .mp3
        (strBytes "testaudio")).events.all fun ev => !ev.isUpload && !ev.isStart) = true :=
  ⟨rfl,
   (submit_persistence_failure_aborts c2Manager () [] () "user1" "campaign1" "session0"
      .mp3 (strBytes "testaudio") () (.errorf "db error") rfl).1,
   (submit_persistence_failure_aborts c2Manager () [] () "user1" "campaign1" "session0"
      .mp3 (strBytes "testaudio") () (.errorf "db error") rfl).2.2⟩

/-- C3: whatever transcript record the persistence lookup returns,
`DownloadTranscript` proceeds directly to fetching the blob at the
record's `TranscriptLocation` — the record's `Status` (including
`Transcribing`) is never inspected and no `Conflicted`-class error is
produced by the orchestrator itself: on a failed lookup the lookup's
error is returned, and otherwise any error returned is exactly the
blob-store download's error. -/
theorem download_no_status_gate {δ φ π : Type} (m : TranscriptionManager δ φ π)
    (d : δ) (f : φ) (jobID : String) :
    (∀ e : GoError, m.transcriptionDb.getTranscript d jobID = .error e →
       (DownloadTranscript m d f jobID).result = .error e ∧
       (DownloadTranscript m d f jobID).events = [.jobQuery jobID]) ∧
    (∀ t : Transcript, m.transcriptionDb.getTranscript d jobID = .ok t →
       (DownloadTranscript m d f jobID).events
         = [.jobQuery jobID, .fetch m.bucket t.transcriptLocation] ∧
       (∀ e : GoError, (DownloadTranscript m d f jobID).result = .error e →
          m.fileStore.downloadData f m.bucket t.transcriptLocation = .error e)) := by
  constructor
  · intro e he
    simp [DownloadTranscript, he]
  · intro t ht
    cases hf : m.fileStore.downloadData f m.bucket t.transcriptLocation with
    | error e' =>
        refine ⟨by simp [DownloadTranscript, ht, hf], ?_⟩
        intro e hres
        simp [DownloadTranscript, ht, hf] at hres
        subst hres
        rfl
    | ok pr =>
        refine ⟨by simp [DownloadTranscript, ht, hf], ?_⟩
        intro e hres
        simp [DownloadTranscript, ht, hf] at hres

/-- The `Transcribing`-status record the C3 witness's persistence
collaborator returns. -/
def c3Transcript : Transcript where
  jobID := "jobId-1"
  audioLocation := "audio.wav"
  audioFormat := .wav
  transcriptLocation := "transcript.txt"
  summaryLocation := ""
  status := .transcribing

/-- A persistence collaborator that returns `c3Transcript` for every job
lookup. -/
def c3Db : DbConn Unit where
  addTranscriptToSession := fun d _ t => (d, .ok t)
  getTranscript := fun _ _ => .ok c3Transcript
  getTranscriptsForSession := fun _ _ => .ok [c3Transcript]

/-- The orchestrator of the C3 witness: the lookup yields a record still
in `Transcribing` status and the blob store fails the download. -/
def c3Manager : TranscriptionManager Unit Unit Unit where
  bucket := "testBucket"
  transcriptionProvider := okProvider
  fileStore := failingDownloadStore (.errorf "file store error")
  transcriptionDb := c3Db
  uuidProvider := testUuid

/-- Witness for C3: the fetch at the record's `TranscriptLocation` happens
even though the record's status is `Transcribing`, and the only error
returned is the blob store's own. -/
theorem download_no_status_gate_witness :
    c3Transcript.status = .transcribing ∧
    c3Manager.transcriptionDb.getTranscript () "jobId-1" = .ok c3Transcript ∧
    (DownloadTranscript c3Manager () () "jobId-1").events
      = [.jobQuery "jobId-1", .fetch "testBucket" "transcript.txt"] ∧
    c3Manager.fileStore.downloadData () "testBucket" "transcript.txt"
      = .error (.errorf "file store error") :=
  ⟨rfl, rfl,
   ((download_no_status_gate c3Manager () () "jobId-1").2 c3Transcript rfl).1,
   ((download_no_status_gate c3Manager () () "jobId-1").2 c3Transcript rfl).2
     (.errorf "file store error") rfl⟩

/-- C4: when the persistence insert and the blob upload succeed but the
provider rejects the job, `SubmitTranscriptionJob` returns the provider's
error unchanged, performs no rollback — the record persisted earlier in
the call is still in the persistence state — and `GetTranscriptJob` finds
that record, whose status is `Transcribing`. -/
theorem submit_provider_failure_keeps_record {φ π : Type}
    (fsO : FileStore φ) (tpO : Provider π) (bucket : String) (uuid : Nat → String)
    (d0 : SpecDbState) (f0 : φ) (p0 : π)
    (userID campaignID sessionID : String) (audioFormat : AudioFormat)
    (audioFile : List Nat) (f1 : φ) (p1 : π) (e : GoError)
    (hup : fsO.uploadData f0 bucket ("audio-" ++ uuid 1) audioFile = (f1, .ok ()))
    (htp : tpO.startTranscriptionJob p0 (uuid 0) ("audio-" ++ uuid 1)
        ("transcript-" ++ uuid 2) audioFormat = (p1, .error e))
    (hfresh : ∀ pr ∈ d0, pr.2.jobID ≠ uuid 0) :
    (SubmitTranscriptionJob ⟨bucket, tpO, fsO, specDb, uuid⟩ d0 f0 p0 userID campaignID
        sessionID audioFormat audioFile).result = .error e ∧
    (SubmitTranscriptionJob ⟨bucket, tpO, fsO, specDb, uuid⟩ d0 f0 p0 userID campaignID
        sessionID audioFormat audioFile).db
      = d0 ++ [(sessionID, assembledTranscript uuid audioFormat)] ∧
    GetTranscriptJob ⟨bucket, tpO, fsO, specDb, uuid⟩
        (SubmitTranscriptionJob ⟨bucket, tpO, fsO, specDb, uuid⟩ d0 f0 p0 userID campaignID
          sessionID audioFormat audioFile).db (uuid 0)
      = .ok (assembledTranscript uuid audioFormat) ∧
    (assembledTranscript uuid audioFormat).status = .transcribing := by
  have hsub : SubmitTranscriptionJob ⟨bucket, tpO, fsO, specDb, uuid⟩ d0 f0 p0 userID
      campaignID sessionID audioFormat audioFile
      = ⟨d0 ++ [(sessionID, assembledTranscript uuid audioFormat)], f1, p1,
         [.persist sessionID (assembledTranscript uuid audioFormat),
          .upload bucket ("audio-" ++ uuid 1) audioFile,
          .start (uuid 0) ("audio-" ++ uuid 1) ("transcript-" ++ uuid 2) audioFormat],
         .error e⟩ := by
    simp only [SubmitTranscriptionJob, specDb, hup, htp]
  refine ⟨by rw [hsub], by rw [hsub], ?_, rfl⟩
  rw [hsub]
  show GetTranscriptJob ⟨bucket, tpO, fsO, specDb, uuid⟩
      (d0 ++ [(sessionID, assembledTranscript uuid audioFormat)]) (uuid 0)
      = .ok (assembledTranscript uuid audioFormat)
  have hnone : ∀ pr ∈ d0, (fun pr : String × Transcript => pr.2.jobID == uuid 0) pr = false := by
    intro pr hpr
    exact beq_eq_false_iff_ne.mpr (hfresh pr hpr)
  simp only [GetTranscriptJob, specDb]
  rw [find?_append_right _ d0 _ hnone]
  simp [assembledTranscript]

/-- Witness for C4 at a concrete rejecting provider over an empty initial
persistence state. -/
theorem submit_provider_failure_keeps_record_witness :
    s3FileStore.uploadData [] "testBucket" ("audio-" ++ testUuid 1) (strBytes "testaudio")
      = ([(("testBucket", "audio-testUUID"), strBytes "testaudio")], .ok ()) ∧
    (errProvider (.errorf "transcription job error")).startTranscriptionJob ()
        (testUuid 0) ("audio-" ++ testUuid 1) ("transcript-" ++ testUuid 2) .mp3
      = ((), .error (.errorf "transcription job error")) ∧
    (SubmitTranscriptionJob ⟨"testBucket", errProvider (.errorf "transcription job error"),
        s3FileStore, specDb, testUuid⟩ [] [] () "user1" "campaign1" "session0" .mp3
        (strBytes "testaudio")).result = .error (.errorf "transcription job error") ∧
    GetTranscriptJob ⟨"testBucket", errProvider (.errorf "transcription job error"),
        s3FileStore, specDb, testUuid⟩
        (SubmitTranscriptionJob ⟨"testBucket", errProvider (.errorf "transcription job error"),
          s3FileStore, specDb, testUuid⟩ [] [] () "user1" "campaign1" "session0" .mp3
          (strBytes "testaudio")).db (testUuid 0)
      = .ok (assembledTranscript testUuid .mp3) :=
  ⟨by decide, rfl,
   (submit_provider_failure_keeps_record s3FileStore
      (errProvider (.errorf "transcription job error")) "testBucket" testUuid [] [] ()
      "user1" "campaign1" "session0" .mp3 (strBytes "testaudio")
      [(("testBucket", "audio-testUUID"), strBytes "testaudio")] ()
      (.errorf "transcription job error") (by decide) rfl
      (by intro pr hpr; cases hpr)).1,
   (submit_provider_failure_keeps_record s3FileStore
      (errProvider (.errorf "transcription job error")) "testBucket" testUuid [] [] ()
      "user1" "campaign1" "session0" .mp3 (strBytes "testaudio")
      [(("testBucket", "audio-testUUID"), strBytes "testaudio")] ()
      (.errorf "transcription job error") (by decide) rfl
      (by intro pr hpr; cases hpr)).2.2.1⟩

/-- C5: within one `SubmitTranscriptionJob` call, the trace of external
side effects is exactly one of the three order-respecting forms — persist
alone (with the insert failing), persist then upload (with the insert
succeeding and the upload failing), or persist then upload then
start-provider-job (with both earlier effects succeeding) — so the
effects happen strictly sequentially in the order persist → upload →
start, and a later effect occurs only if every earlier one succeeded. -/
theorem submit_effects_sequential {δ φ π : Type} (m : TranscriptionManager δ φ π)
    (d : δ) (f : φ) (p : π) (userID campaignID sessionID : String)
    (audioFormat : AudioFormat) (audioFile : List Nat) :
    ((SubmitTranscriptionJob m d f p userID campaignID sessionID audioFormat
        audioFile).events
       = [.persist sessionID (assembledTranscript m.uuidProvider audioFormat)] ∧
     (∃ e, (m.transcriptionDb.addTranscriptToSession d sessionID
        (assembledTranscript m.uuidProvider audioFormat)).2 = .error e)) ∨
    ((SubmitTranscriptionJob m d f p userID campaignID sessionID audioFormat
        audioFile).events
       = [.persist sessionID (assembledTranscript m.uuidProvider audioFormat),
          .upload m.bucket ("audio-" ++ m.uuidProvider 1) audioFile] ∧
     (∃ x, (m.transcriptionDb.addTranscriptToSession d sessionID
        (assembledTranscript m.uuidProvider audioFormat)).2 = .ok x) ∧
     (∃ e, (m.fileStore.uploadData f m.bucket ("audio-" ++ m.uuidProvider 1)
        audioFile).2 = .error e)) ∨
    ((SubmitTranscriptionJob m d f p userID campaignID sessionID audioFormat
        audioFile).events
       = [.persist sessionID (assembledTranscript m.uuidProvider audioFormat),
          .upload m.bucket ("audio-" ++ m.uuidProvider 1) audioFile,
          .start (m.uuidProvider 0) ("audio-" ++ m.uuidProvider 1)
            ("transcript-" ++ m.uuidProvider 2) audioFormat] ∧
     (∃ x, (m.transcriptionDb.addTranscriptToSession d sessionID
        (assembledTranscript m.uuidProvider audioFormat)).2 = .ok x) ∧
     (∃ y, (m.fileStore.uploadData f m.bucket ("audio-" ++ m.uuidProvider 1)
        audioFile).2 = .ok y)) := by
  rcases ha : m.transcriptionDb.addTranscriptToSession d sessionID
      (assembledTranscript m.uuidProvider audioFormat) with ⟨d1, ares⟩
  cases ares with
  | error e =>
      left
      exact ⟨by simp [SubmitTranscriptionJob, ha], ⟨e, rfl⟩⟩
  | ok x =>
      rcases hu : m.fileStore.uploadData f m.bucket ("audio-" ++ m.uuidProvider 1)
          audioFile with ⟨f1, ures⟩
      cases ures with
      | error e =>
          right; left
          exact ⟨by simp [SubmitTranscriptionJob, ha, hu], ⟨x, rfl⟩, ⟨e, rfl⟩⟩
      | ok y =>
          right; right
          refine ⟨?_, ⟨x, rfl⟩, ⟨y, rfl⟩⟩
          rcases hs : m.transcriptionProvider.startTranscriptionJob p (m.uuidProvider 0)
              ("audio-" ++ m.uuidProvider 1) ("transcript-" ++ m.uuidProvider 2)
              audioFormat with ⟨p1, sres⟩
          cases sres with
          | error e => simp [SubmitTranscriptionJob, ha, hu, hs]
          | ok z => simp [SubmitTranscriptionJob, ha, hu, hs]

/-- C6: a successful `SubmitTranscriptionJob` returns exactly the
in-memory Transcript assembled before the persistence call — `Status`
`Transcribing`, `SummaryLocation` empty — regardless of what record the
persistence collaborator handed back. -/
theorem submit_returns_assembled {δ φ π : Type} (m : TranscriptionManager δ φ π)
    (d : δ) (f : φ) (p : π) (userID campaignID sessionID : String)
    (audioFormat : AudioFormat) (audioFile : List Nat) (t : Transcript)
    (h : (SubmitTranscriptionJob m d f p userID campaignID sessionID audioFormat
        audioFile).result = .ok t) :
    t = assembledTranscript m.uuidProvider audioFormat ∧
    t.status = .transcribing ∧ t.summaryLocation = "" := by
  rcases ha : m.transcriptionDb.addTranscriptToSession d sessionID
      (assembledTranscript m.uuidProvider audioFormat) with ⟨d1, ares⟩
  cases ares with
  | error e => simp [SubmitTranscriptionJob, ha] at h
  | ok x =>
      rcases hu : m.fileStore.uploadData f m.bucket ("audio-" ++ m.uuidProvider 1)
          audioFile with ⟨f1, ures⟩
      cases ures with
      | error e => simp [SubmitTranscriptionJob, ha, hu] at h
      | ok y =>
          rcases hs : m.transcriptionProvider.startTranscriptionJob p (m.uuidProvider 0)
              ("audio-" ++ m.uuidProvider 1) ("transcript-" ++ m.uuidProvider 2)
              audioFormat with ⟨p1, sres⟩
          cases sres with
          | error e => simp [SubmitTranscriptionJob, ha, hu, hs] at h
          | ok z =>
              simp [SubmitTranscriptionJob, ha, hu, hs] at h
              subst h
              exact ⟨rfl, rfl, rfl⟩

/-- The record the C6 witness's persistence collaborator claims to have
stored — different in every field from the record the orchestrator
assembled. -/
def c6Stored : Transcript where
  jobID := "db-changed-this"
  audioLocation := "db-audio"
  audioFormat := .flac
  transcriptLocation := "db-transcript"
  summaryLocation := "db-summary"
  status := .done

/-- A persistence collaborator whose insert reports `c6Stored` as the
stored record, whatever was inserted. -/
def c6Db : DbConn Unit where
  addTranscriptToSession := fun d _ _ => (d, .ok c6Stored)
  getTranscript := fun _ _ => .ok c6Stored
  getTranscriptsForSession := fun _ _ => .ok [c6Stored]

/-- The orchestrator of the C6 witness. -/
def c6Manager : TranscriptionManager Unit S3State Unit where
  bucket := "testBucket"
  transcriptionProvider := okProvider
  fileStore := s3FileStore
  transcriptionDb := c6Db
  uuidProvider := testUuid

/-- Witness for C6: even though the persistence collaborator reported a
completely different stored record, the call returned the locally
assembled one. -/
theorem submit_returns_assembled_witness :
    (SubmitTranscriptionJob c6Manager () [] () "user1" "campaign1" "session0" .mp3
        (strBytes "testaudio")).result = .ok (assembledTranscript testUuid .mp3) ∧
    (assembledTranscript testUuid .mp3).status = .transcribing ∧
    (assembledTranscript testUuid .mp3).summaryLocation = "" ∧
    assembledTranscript testUuid .mp3 ≠ c6Stored :=
  ⟨rfl,
   (submit_returns_assembled c6Manager () [] () "user1" "campaign1" "session0" .mp3
      (strBytes "testaudio") (assembledTranscript testUuid .mp3) rfl).2.1,
   (submit_returns_assembled c6Manager () [] () "user1" "campaign1" "session0" .mp3
      (strBytes "testaudio") (assembledTranscript testUuid .mp3) rfl).2.2,
   by decide⟩

/-- C7 counterexample: parsing a string that matches no defined
`AudioFormat` name does return a non-nil error — but it is the plain
formatted error `fmt.Errorf("invalid AudioFormat: %s", str)`, which does
NOT wrap `models.InvalidEntity`, so under Go's `errors.Is` it is not an
`InvalidEntity`-class error (and would be mapped to 500, not 422, by the
presentation layer's `handleError`). -/
theorem parse_error_not_invalidEntity_class :
    AudioFormatFromString "mp5" = .error (.errorf "invalid AudioFormat: mp5") ∧
    GoError.is (.errorf "invalid AudioFormat: mp5") .invalidEntity = false ∧
    GoError.is .invalidEntity .invalidEntity = true := by
  decide

/-- C7 (amended): for every defined `AudioFormat` and `TranscriptStatus`
value, stringify(parse(stringify x)) = stringify x; parsing is
case-insensitive (`"done"`, `"Done"`, `"DONE"` all parse to `Done`); and
parsing a string that matches no defined name never silently yields a
value — it returns the non-nil plain formatted error
`invalid AudioFormat/TranscriptStatus: <input>`, which however is not an
`InvalidEntity`-classified error under `errors.Is`. -/
theorem enum_string_roundtrip :
    (∀ a : AudioFormat, (AudioFormatFromString a.str).map AudioFormat.str = .ok a.str) ∧
    (∀ t : TranscriptStatus,
       (TranscriptStatusFromString t.str).map TranscriptStatus.str = .ok t.str) ∧
    (TranscriptStatusFromString "done" = .ok .done ∧
     TranscriptStatusFromString "Done" = .ok .done ∧
     TranscriptStatusFromString "DONE" = .ok .done) ∧
    (∀ s : String, (audioFormatTable.all fun pr => !strEqualFold pr.2 s) = true →
       AudioFormatFromString s = .error (.errorf ("invalid AudioFormat: " ++ s)) ∧
       GoError.is (.errorf ("invalid AudioFormat: " ++ s)) .invalidEntity = false) ∧
    (∀ s : String, (transcriptStatusTable.all fun pr => !strEqualFold pr.2 s) = true →
       TranscriptStatusFromString s
         = .error (.errorf ("invalid TranscriptStatus: " ++ s)) ∧
       GoError.is (.errorf ("invalid TranscriptStatus: " ++ s)) .invalidEntity = false) := by
  refine ⟨by decide, by decide, by decide, ?_, ?_⟩
  · intro s h
    simp only [List.all_eq_true, Bool.not_eq_true'] at h
    have hnone : audioFormatTable.find? (fun pr => strEqualFold pr.2 s) = none := by
      rw [List.find?_eq_none]
      intro pr hpr
      simp [h pr hpr]
    refine ⟨by simp [AudioFormatFromString, hnone], ?_⟩
    simp [GoError.is]
  · intro s h
    simp only [List.all_eq_true, Bool.not_eq_true'] at h
    have hnone : transcriptStatusTable.find? (fun pr => strEqualFold pr.2 s) = none := by
      rw [List.find?_eq_none]
      intro pr hpr
      simp [h pr hpr]
    refine ⟨by simp [TranscriptStatusFromString, hnone], ?_⟩
    simp [GoError.is]

/-- Witness for C7 (amended) at the unmatched inputs `"mp5"` and
`"Pending"`. -/
theorem enum_string_roundtrip_witness :
    ((audioFormatTable.all fun pr => !strEqualFold pr.2 "mp5") = true ∧
     AudioFormatFromString "mp5" = .error (.errorf "invalid AudioFormat: mp5")) ∧
    ((transcriptStatusTable.all fun pr => !strEqualFold pr.2 "Pending") = true ∧
     TranscriptStatusFromString "Pending"
       = .error (.errorf "invalid TranscriptStatus: Pending")) :=
  ⟨⟨by decide, (enum_string_roundtrip.2.2.2.1 "mp5" (by decide)).1⟩,
   ⟨by decide, (enum_string_roundtrip.2.2.2.2 "Pending" (by decide)).1⟩⟩

/-- The persisted `Done` record of the C8 download scenario. -/
def c8Transcript : Transcript where
  jobID := "jobId-1"
  audioLocation := "audio.wav"
  audioFormat := .wav
  transcriptLocation := "transcript.txt"
  summaryLocation := ""
  status := .done

/-- C8: with a persisted `Done` transcript whose `TranscriptLocation`
holds the 14-byte blob `"this is a test"`, `DownloadTranscript` succeeds
with byte count 14 and the sink holds exactly those bytes; and whenever
the persistence lookup fails, its error is returned and no blob fetch
occurs. -/
theorem download_scenario :
    ((DownloadTranscript testManager [("session-1", c8Transcript)]
        [(("testBucket", "transcript.txt"), strBytes "this is a test")] "jobId-1").result
       = .ok (14, strBytes "this is a test") ∧
     c8Transcript.status = .done ∧ (strBytes "this is a test").length = 14) ∧
    (∀ (d : SpecDbState) (f : S3State) (jobID : String) (e : GoError),
       specDb.getTranscript d jobID = .error e →
       (DownloadTranscript testManager d f jobID).result = .error e ∧
       (DownloadTranscript testManager d f jobID).events = [.jobQuery jobID]) := by
  refine ⟨by decide, ?_⟩
  intro d f jobID e he
  have he' : testManager.transcriptionDb.getTranscript d jobID = .error e := he
  simp [DownloadTranscript, he']

/-- Witness for C8's lookup-failure clause at the empty persistence
state. -/
theorem download_scenario_witness :
    specDb.getTranscript ([] : SpecDbState) "missing-job" = .error .entityNotFound ∧
    (DownloadTranscript testManager [] [] "missing-job").result
      = .error .entityNotFound ∧
    (DownloadTranscript testManager [] [] "missing-job").events
      = [.jobQuery "missing-job"] :=
  ⟨rfl,
   (download_scenario.2 [] [] "missing-job" .entityNotFound rfl).1,
   (download_scenario.2 [] [] "missing-job" .entityNotFound rfl).2⟩

/-- C9: the orchestrator never mutates the status of an existing persisted
record — after any `SubmitTranscriptionJob` call every previously stored
row is still stored unchanged, every row of the final state is either an
old row or the freshly created one whose status is `Transcribing`, the
only persistence writes in the call's trace carry status `Transcribing`,
and `GetTranscriptJob` / `GetTranscriptsForSession` / `DownloadTranscript`
issue no persistence write at all (for any collaborators whatsoever). -/
theorem orchestrator_never_mutates_status {φ π : Type}
    (fsO : FileStore φ) (tpO : Provider π) (bucket : String) (uuid : Nat → String)
    (d0 : SpecDbState) (f0 : φ) (p0 : π)
    (userID campaignID sessionID : String) (audioFormat : AudioFormat)
    (audioFile : List Nat) :
    (∀ pr, pr ∈ d0 →
       pr ∈ (SubmitTranscriptionJob ⟨bucket, tpO, fsO, specDb, uuid⟩ d0 f0 p0 userID
          campaignID sessionID audioFormat audioFile).db) ∧
    (∀ pr, pr ∈ (SubmitTranscriptionJob ⟨bucket, tpO, fsO, specDb, uuid⟩ d0 f0 p0 userID
          campaignID sessionID audioFormat audioFile).db →
       pr ∈ d0 ∨ pr.2.status = .transcribing) ∧
    (∀ sid t, Event.persist sid t ∈ (SubmitTranscriptionJob ⟨bucket, tpO, fsO, specDb,
          uuid⟩ d0 f0 p0 userID campaignID sessionID audioFormat audioFile).events →
       t.status = .transcribing) ∧
    (∀ (δ' φ' π' : Type) (m : TranscriptionManager δ' φ' π') (d : δ') (f : φ')
        (jobID : String),
       ((DownloadTranscript m d f jobID).events.all fun ev => !ev.isPersist) = true) := by
  have hdb : (SubmitTranscriptionJob ⟨bucket, tpO, fsO, specDb, uuid⟩ d0 f0 p0 userID
      campaignID sessionID audioFormat audioFile).db
      = d0 ++ [(sessionID, assembledTranscript uuid audioFormat)] := by
    rcases hu : fsO.uploadData f0 bucket ("audio-" ++ uuid 1) audioFile with ⟨f1, ures⟩
    cases ures with
    | error e => simp [SubmitTranscriptionJob, specDb, hu]
    | ok y =>
        rcases hs : tpO.startTranscriptionJob p0 (uuid 0) ("audio-" ++ uuid 1)
            ("transcript-" ++ uuid 2) audioFormat with ⟨p1, sres⟩
        cases sres with
        | error e => simp [SubmitTranscriptionJob, specDb, hu, hs]
        | ok z => simp [SubmitTranscriptionJob, specDb, hu, hs]
  have hev : ∀ sid t, Event.persist sid t ∈ (SubmitTranscriptionJob ⟨bucket, tpO, fsO,
      specDb, uuid⟩ d0 f0 p0 userID campaignID sessionID audioFormat
      audioFile).events → t.status = .transcribing := by
    intro sid t ht
    rcases (submit_effects_sequential ⟨bucket, tpO, fsO, specDb, uuid⟩ d0 f0 p0 userID
        campaignID sessionID audioFormat audioFile) with ⟨hevs, _⟩ | ⟨hevs, _⟩ | ⟨hevs, _⟩ <;>
      · rw [hevs] at ht
        simp only [List.mem_cons, List.not_mem_nil, or_false, Event.persist.injEq,
          reduceCtorEq, false_and, and_false] at ht
        rw [ht.2]
        rfl
  refine ⟨?_, ?_, hev, ?_⟩
  · intro pr hpr
    rw [hdb]
    exact List.mem_append_left _ hpr
  · intro pr hpr
    rw [hdb] at hpr
    rcases List.mem_append.mp hpr with h | h
    · exact Or.inl h
    · right
      simp only [List.mem_singleton] at h
      subst h
      rfl
  · intro δ' φ' π' m d f jobID
    cases hg : m.transcriptionDb.getTranscript d jobID with
    | error e => simp [DownloadTranscript, hg, Event.isPersist]
    | ok t =>
        cases hf : m.fileStore.downloadData f m.bucket t.transcriptLocation with
        | error e => simp [DownloadTranscript, hg, hf, Event.isPersist]
        | ok pr => simp [DownloadTranscript, hg, hf, Event.isPersist]

/-- Witness for C9: a concrete `Done` record stored before a submit is
still stored, unchanged, afterwards. -/
theorem orchestrator_never_mutates_status_witness :
    ("session-1", c8Transcript)
      ∈ (SubmitTranscriptionJob ⟨"testBucket", okProvider, s3FileStore, specDb, testUuid⟩
          [("session-1", c8Transcript)] [] () "user1" "campaign1" "session0" .mp3
          (strBytes "testaudio")).db :=
  (orchestrator_never_mutates_status s3FileStore okProvider "testBucket" testUuid
      [("session-1", c8Transcript)] [] () "user1" "campaign1" "session0" .mp3
      (strBytes "testaudio")).1 ("session-1", c8Transcript) (by decide)

/-- Whether a blob key contains the Unix path separator `'/'`. -/
def containsSep (s : String) : Bool :=
  s.data.any (fun c => c = '/')

lemma dropWhile_all_false {l : List Char} {p : Char → Bool}
    (h : ∀ x ∈ l, p x = false) : l.dropWhile p = l := by
  cases l with
  | nil => rfl
  | cons a t => simp [List.dropWhile, h a (by simp)]

lemma takeWhile_all_true {l : List Char} {p : Char → Bool}
    (h : ∀ x ∈ l, p x = true) : l.takeWhile p = l :=
  List.takeWhile_eq_self_iff.mpr h

lemma length_takeWhile_le' (l : List Char) (p : Char → Bool) :
    (l.takeWhile p).length ≤ l.length := by
  induction l with
  | nil => exact Nat.le_refl _
  | cons a t ih =>
      by_cases hpa : p a = true
      · simp only [List.takeWhile, hpa]
        exact Nat.succ_le_succ ih
      · have hpa' : p a = false := by
          cases hc : p a
          · rfl
          · exact absurd hc hpa
        simp [List.takeWhile, hpa']

lemma length_dropWhile_le' (l : List Char) (p : Char → Bool) :
    (l.dropWhile p).length ≤ l.length := by
  induction l with
  | nil => exact Nat.le_refl _
  | cons a t ih =>
      by_cases hpa : p a = true
      · simp only [List.dropWhile, hpa]
        exact Nat.le_succ_of_le ih
      · have hpa' : p a = false := by
          cases hc : p a
          · rfl
          · exact absurd hc hpa
        simp [List.dropWhile, hpa']

lemma dropWhile_eq_self_of_length {l : List Char} {p : Char → Bool}
    (h : (l.dropWhile p).length = l.length) : l.dropWhile p = l := by
  cases l with
  | nil => rfl
  | cons a t =>
      by_cases hpa : p a = true
      · exfalso
        have hle : (t.dropWhile p).length ≤ t.length := length_dropWhile_le' t p
        have h' : (t.dropWhile p).length = t.length + 1 := by
          simpa [List.dropWhile, hpa] using h
        omega
      · have hpa' : p a = false := by
          cases hc : p a
          · rfl
          · exact absurd hc hpa
        simp [List.dropWhile, hpa']

lemma dropWhile_head_false (l : List Char) (p : Char → Bool) :
    l.dropWhile p = [] ∨ ∃ a t, l.dropWhile p = a :: t ∧ p a = false := by
  induction l with
  | nil => exact Or.inl rfl
  | cons a t ih =>
      by_cases hpa : p a = true
      · simpa [List.dropWhile, hpa] using ih
      · have hpa' : p a = false := by
          cases hc : p a
          · rfl
          · exact absurd hc hpa
        exact Or.inr ⟨a, t, by simp [List.dropWhile, hpa'], hpa'⟩

lemma filepathBase_length_lt (k : String) (h1 : containsSep k = true)
    (h2 : k ≠ "/") : (filepathBase k).length < k.length := by
  obtain ⟨x, hxmem, hx⟩ := List.any_eq_true.mp h1
  have hxs : x = '/' := of_decide_eq_true hx
  subst hxs
  have hk : k ≠ "" := by
    intro h
    subst h
    cases hxmem
  have hlen : k.length = k.data.length := rfl
  rw [filepathBase, if_neg hk]
  by_cases hstrip : (k.data.reverse.dropWhile (fun c => c = '/')).reverse = []
  · have hall : ∀ c ∈ k.data, c = '/' := by
      intro c hc
      have : k.data.reverse.dropWhile (fun c => c = '/') = [] := by
        simpa using congrArg List.reverse hstrip
      exact of_decide_eq_true
        (dropWhile_eq_nil_forall this c (List.mem_reverse.mpr hc))
    have hlast : ((k.data.reverse.dropWhile (fun c => c = '/')).reverse.reverse.takeWhile
        (fun c => c ≠ '/')).reverse = [] := by
      rw [hstrip]
      rfl
    simp only [hstrip, hlast, if_pos]
    have h2' : k.data.length ≠ 1 := by
      intro hone
      obtain ⟨a, hdata⟩ := List.length_eq_one.mp hone
      have ha : a = '/' := hall a (by rw [hdata]; simp)
      apply h2
      cases k with
      | mk data =>
          simp only at hdata
          rw [hdata, ha]
    have h0 : 0 < k.data.length := by
      cases hd : k.data with
      | nil => rw [hd] at hxmem; cases hxmem
      | cons a t => simp
    rw [hlen]
    show ("/" : String).length < k.data.length
    have : ("/" : String).length = 1 := rfl
    omega
  · rcases dropWhile_head_false k.data.reverse (fun c => c = '/') with hnil | ⟨a, t, hat, hpa⟩
    · exact absurd (by rw [hnil]; rfl) hstrip
    · have hlast : ((k.data.reverse.dropWhile (fun c => c = '/')).reverse.reverse.takeWhile
          (fun c => c ≠ '/')).reverse ≠ [] := by
        rw [List.reverse_reverse, hat]
        have hane : decide (a ≠ '/') = true := by
          simp only [decide_not, hpa]
          rfl
        simp [List.takeWhile, hane]
      rw [if_neg hlast]
      show ((k.data.reverse.dropWhile (fun c => c = '/')).reverse.reverse.takeWhile
          (fun c => c ≠ '/')).reverse.length < k.length
      rw [List.length_reverse, List.reverse_reverse]
      by_cases hS : (k.data.reverse.dropWhile (fun c => c = '/')).length = k.data.length
      · have hself : k.data.reverse.dropWhile (fun c => c = '/') = k.data.reverse := by
          apply dropWhile_eq_self_of_length
          rw [hS, List.length_reverse]
        rw [hself]
        have hmem' : ('/' : Char) ∈ k.data.reverse := List.mem_reverse.mpr hxmem
        have hfalse : (fun c : Char => decide (c ≠ '/')) '/' = false := by
          simp
        calc (k.data.reverse.takeWhile (fun c => c ≠ '/')).length
            < k.data.reverse.length := length_takeWhile_lt hmem' hfalse
          _ = k.length := by rw [List.length_reverse]; rfl
      · have hle : (k.data.reverse.dropWhile (fun c => c = '/')).length
            ≤ k.data.length := by
          calc (k.data.reverse.dropWhile (fun c => c = '/')).length
              ≤ k.data.reverse.length := length_dropWhile_le' _ _
            _ = k.data.length := List.length_reverse _
        have hlt : (k.data.reverse.dropWhile (fun c => c = '/')).length
            < k.data.length := Nat.lt_of_le_of_ne hle hS
        have hle2 : ((k.data.reverse.dropWhile (fun c => c = '/')).takeWhile
            (fun c => c ≠ '/')).length
            ≤ (k.data.reverse.dropWhile (fun c => c = '/')).length :=
          length_takeWhile_le' _ _
        rw [hlen]
        omega

/-- C10 counterexample: the claim quantifies over every fileKey containing
a path separator, but for the key `"/"` Go's `filepath.Base` returns
`"/"` itself, so `UploadData` stores the object under exactly the key
that `DownloadData` fetches — the upload/download round-trip at
`fileKey = "/"` does address the object just uploaded. -/
theorem s3_roundtrip_claim_counterexample :
    containsSep "/" = true ∧
    filepathBase "/" = "/" ∧
    s3DownloadData (s3UploadData [] "testBucket" "/" (strBytes "x")) "testBucket" "/"
      = .ok (strBytes "x", 1) := by
  decide

/-- C10 (amended): `UploadData` stores under `filepath.Base(fileKey)`
while `DownloadData` fetches under the full `fileKey`, so for every
fileKey containing a path separator — except the single-separator key
`"/"`, which `Base` maps to itself — an upload followed by a download of
the same (bucket, fileKey) pair does not address the object just
uploaded; the round-trip addresses the uploaded object for separator-free
(non-empty) keys and for `"/"`. -/
theorem s3_upload_download_key_asymmetry (k b : String) (body : List Nat) :
    (containsSep k = true → k ≠ "/" →
       filepathBase k ≠ k ∧
       s3DownloadData (s3UploadData [] b k body) b k = .error .entityNotFound) ∧
    (containsSep k = false → k ≠ "" →
       filepathBase k = k ∧
       s3DownloadData (s3UploadData [] b k body) b k = .ok (body, body.length)) ∧
    (k = "/" →
       s3DownloadData (s3UploadData [] b k body) b k = .ok (body, body.length)) := by
  refine ⟨?_, ?_, ?_⟩
  · intro h1 h2
    have hne : filepathBase k ≠ k := by
      intro he
      have hlt := filepathBase_length_lt k h1 h2
      rw [he] at hlt
      exact Nat.lt_irrefl _ hlt
    refine ⟨hne, ?_⟩
    have hbeq : (((b, filepathBase k) : String × String) == (b, k)) = false := by
      apply beq_eq_false_iff_ne.mpr
      intro hpr
      exact hne (congrArg Prod.snd hpr)
    simp [s3DownloadData, s3UploadData, List.find?, hbeq]
  · intro h1 h2
    have hall : ∀ c ∈ k.data, (fun c : Char => decide (c = '/')) c = false := by
      intro c hc
      have h1' : (k.data.any fun c => decide (c = '/')) = false := h1
      exact decide_eq_false (by simpa using List.any_eq_false.mp h1' c hc)
    have hbase : filepathBase k = k := by
      rw [filepathBase, if_neg h2]
      have hstrip : k.data.reverse.dropWhile (fun c => c = '/') = k.data.reverse :=
        dropWhile_all_false fun x hx => hall x (List.mem_reverse.mp hx)
      have htake : k.data.reverse.takeWhile (fun c => c ≠ '/') = k.data.reverse := by
        apply takeWhile_all_true
        intro x hx
        have hfx : decide (x = '/') = false := hall x (List.mem_reverse.mp hx)
        simp [hfx]
      have hklast : ((k.data.reverse.dropWhile (fun c => c = '/')).reverse.reverse.takeWhile
          (fun c => c ≠ '/')).reverse = k.data := by
        rw [List.reverse_reverse, hstrip, htake, List.reverse_reverse]
      have hknil : k.data ≠ [] := by
        intro hd
        apply h2
        cases k with
        | mk data =>
            simp only at hd
            rw [hd]
      simp only [hklast]
      rw [if_neg hknil]
    refine ⟨hbase, ?_⟩
    simp [s3DownloadData, s3UploadData, List.find?, hbase]
  · intro hk
    subst hk
    simp [s3DownloadData, s3UploadData, List.find?,
      show filepathBase "/" = "/" from rfl]

/-- Witness for C10 (amended) at the directory-carrying key `"a/b"` and
the separator-free key `"b"`. -/
theorem s3_upload_download_key_asymmetry_witness :
    (containsSep "a/b" = true ∧ ("a/b" : String) ≠ "/" ∧
     s3DownloadData (s3UploadData [] "testBucket" "a/b" (strBytes "x")) "testBucket" "a/b"
       = .error .entityNotFound) ∧
    (containsSep "b" = false ∧ ("b" : String) ≠ "" ∧
     s3DownloadData (s3UploadData [] "testBucket" "b" (strBytes "x")) "testBucket" "b"
       = .ok (strBytes "x", (strBytes "x").length)) :=
  ⟨⟨by decide, by decide,
    ((s3_upload_download_key_asymmetry "a/b" "testBucket" (strBytes "x")).1
      (by decide) (by decide)).2⟩,
   ⟨by decide, by decide,
    ((s3_upload_download_key_asymmetry "b" "testBucket" (strBytes "x")).2.1
      (by decide) (by decide)).2⟩⟩
